import Mathlib

/-!
A shallow embedding of the source-structure resolution and documentation
synthesis core of the autovate repository: the unified-diff hunk parser and
scope resolvers of git_module.py, the declaration scanner of langraph.py, and
the doc-comment extraction, markdown rendering and history bookkeeping of
app/docgen.py.  Definitions mirror the Python source; claim-side definitions
that follow the wording of the specification are marked as such.
-/

/-- Python whitespace characters: the set stripped by str.strip and matched
by the regex whitespace class (ASCII range). -/
def pySpace (c : Char) : Bool :=
  c = ' ' || c = '\t' || c = '\n' || c = '\r' || c = '\x0b' || c = '\x0c'

/-- Remove leading characters satisfying p (Python str.lstrip). -/
def lstripWith (p : Char → Bool) (cs : List Char) : List Char :=
  cs.dropWhile p

/-- Remove trailing characters satisfying p (Python str.rstrip). -/
def rstripWith (p : Char → Bool) (cs : List Char) : List Char :=
  (cs.reverse.dropWhile p).reverse

/-- Python str.strip with no argument: strip whitespace on both ends. -/
def pyStrip (cs : List Char) : List Char :=
  rstripWith pySpace (lstripWith pySpace cs)

/-- Split a character list at newline characters.  Always returns at least
one (possibly empty) line; a trailing newline yields a trailing empty line. -/
def splitLines : List Char → List (List Char)
  | [] => [[]]
  | c :: cs =>
    if c = '\n' then [] :: splitLines cs
    else
      match splitLines cs with
      | [] => [[c]]
      | l :: ls => (c :: l) :: ls

/-- Python str.splitlines for newline-separated text: like splitLines but an
empty string gives no lines and a trailing newline produces no empty line. -/
def pySplitLines (cs : List Char) : List (List Char) :=
  if cs = [] then []
  else if cs.getLast? = some '\n' then splitLines cs.dropLast
  else splitLines cs

/-- Join lines with newline separators (Python newline str.join). -/
def joinNl (ls : List (List Char)) : List Char :=
  List.intercalate ['\n'] ls

/-- Boolean prefix test on character lists. -/
def startsWithL (pre cs : List Char) : Bool :=
  pre.isPrefixOf cs

/-- Word characters of the regex word class (ASCII): letters, digits, underscore. -/
def isWordChar (c : Char) : Bool :=
  c.isAlphanum || c = '_'

/-- Identifier start characters for the JavaScript and Java declaration
patterns: letters, underscore, dollar. -/
def isJsIdentStart (c : Char) : Bool :=
  c.isAlpha || c = '_' || c = '$'

/-- The backquote character (code point 96). -/
def bq : Char := Char.ofNat 96

/-- Value of a run of decimal digit characters, most significant first. -/
def digitsVal (ds : List Char) : Nat :=
  ds.foldl (fun a c => a * 10 + (c.toNat - 48)) 0

/-- Fuel-indexed decimal printer: digits of n, most significant first. -/
def natStrAux : Nat → Nat → List Char
  | 0, _ => []
  | fuel + 1, n =>
    if n < 10 then [Nat.digitChar n]
    else natStrAux fuel (n / 10) ++ [Nat.digitChar (n % 10)]

/-- Decimal representation of a natural number as characters. -/
def natStrL (n : Nat) : List Char := natStrAux (n + 1) n

/-- Decimal representation of a natural number as a string. -/
def natStrS (n : Nat) : String := String.mk (natStrL n)

/-- Leftmost split of cs around the pattern pat: some (pre, post) when
cs = pre ++ pat ++ post with the shortest possible pre. -/
def findSplit (pat : List Char) : List Char → Option (List Char × List Char)
  | [] => if pat = [] then some ([], []) else none
  | c :: cs =>
    if pat.isPrefixOf (c :: cs) then some ([], (c :: cs).drop pat.length)
    else
      match findSplit pat cs with
      | some (pre, post) => some (c :: pre, post)
      | none => none

/-- Substring test built on findSplit. -/
def containsSub (pat cs : List Char) : Bool :=
  (findSplit pat cs).isSome

/-- First-match association-list lookup (model of Python dict lookup; all
dictionaries built by the embedded code have pairwise distinct keys). -/
def lookupA {α β : Type} [DecidableEq α] : List (α × β) → α → Option β
  | [], _ => none
  | (k, v) :: rest, key => if k = key then some v else lookupA rest key

/-- One added or deleted line from a diff hunk (git_module.parse_patch_for_changes). -/
inductive ChangeType where
  | add
  | del
deriving DecidableEq, Repr

/-- A change record emitted by the diff hunk parser: its axis, the 1-indexed
line number on that axis, and the raw content after the sign column. -/
structure ChangeRecord where
  type : ChangeType
  lineno : Nat
  content : List Char
deriving DecidableEq, Repr

/-- Parse a nonempty run of leading digits, returning its value and the rest. -/
def parseNatPrefix (cs : List Char) : Option (Nat × List Char) :=
  let ds := cs.takeWhile Char.isDigit
  if ds = [] then none else some (digitsVal ds, cs.drop ds.length)

/-- Skip an optional comma-and-digits group, as in the hunk header pattern. -/
def skipOptCommaNum (cs : List Char) : List Char :=
  match cs with
  | ',' :: r =>
    let ds := r.takeWhile Char.isDigit
    if ds = [] then cs else r.drop ds.length
  | _ => cs

/-- Match the unified-diff hunk header pattern of git_module.py line 24,
returning the old and new start line numbers. -/
def parseHunkHeader (cs : List Char) : Option (Nat × Nat) :=
  match cs with
  | '@' :: '@' :: ' ' :: '-' :: rest =>
    match parseNatPrefix rest with
    | none => none
    | some (o, r1) =>
      match skipOptCommaNum r1 with
      | ' ' :: '+' :: r2 =>
        match parseNatPrefix r2 with
        | none => none
        | some (n, r3) =>
          match skipOptCommaNum r3 with
          | ' ' :: '@' :: '@' :: _ => some (o, n)
          | _ => none
      | _ => none
  | _ => none

/-- The line-consuming loop of parse_patch_for_changes.  The state is none
outside a hunk and some (old, new) inside one; a line starting with the
at-at-space marker ends the current hunk and is re-examined as a header. -/
def parseChangesLoop : List (List Char) → Option (Nat × Nat) → List ChangeRecord
  | [], _ => []
  | l :: rest, some (o, n) =>
    if startsWithL ['@', '@', ' '] l then
      match parseHunkHeader l with
      | some st => parseChangesLoop rest (some st)
      | none => parseChangesLoop rest none
    else if startsWithL ['+'] l && !startsWithL ['+', '+', '+'] l then
      ⟨ChangeType.add, n, l.drop 1⟩ :: parseChangesLoop rest (some (o, n + 1))
    else if startsWithL ['-'] l && !startsWithL ['-', '-', '-'] l then
      ⟨ChangeType.del, o, l.drop 1⟩ :: parseChangesLoop rest (some (o + 1, n))
    else
      parseChangesLoop rest (some (o + 1, n + 1))
  | l :: rest, none =>
    match parseHunkHeader l with
    | some st => parseChangesLoop rest (some st)
    | none => parseChangesLoop rest none

/-- git_module.parse_patch_for_changes: split the patch text into lines and
run the two-counter hunk loop. -/
def parse_patch_for_changes (patch_text : String) : List ChangeRecord :=
  parseChangesLoop (pySplitLines patch_text.data) none

/-- The concrete patch of the C1 test property. -/
def c1Patch : String := "@@ -5,3 +5,4 @@\n-old line\n+new line"

/-- A node of the Python declaration skeleton: the class / function /
async-function nodes that ast.walk visits in git_module.py and langraph.py,
with their 1-indexed inclusive line spans and nested declaration bodies. -/
inductive PyNode where
  | classDef (name : String) (lineno endLineno : Nat) (body : List PyNode)
  | funcDef (name : String) (isAsync : Bool) (lineno endLineno : Nat) (body : List PyNode)

/-- Start line of a declaration node. -/
def PyNode.lineno : PyNode → Nat
  | .classDef _ l _ _ => l
  | .funcDef _ _ l _ _ => l

/-- End line of a declaration node. -/
def PyNode.endLineno : PyNode → Nat
  | .classDef _ _ e _ => e
  | .funcDef _ _ _ e _ => e

/-- Nested declarations of a node. -/
def PyNode.body : PyNode → List PyNode
  | .classDef _ _ _ b => b
  | .funcDef _ _ _ _ b => b

/-- The chain token of a node, as built by find_enclosing_python_chain:
kind keyword followed by the name. -/
def PyNode.token : PyNode → String
  | .classDef n _ _ _ => "class " ++ n
  | .funcDef n _ _ _ _ => "def " ++ n

mutual

/-- Number of nodes in a node, including itself. -/
def PyNode.size : PyNode → Nat
  | .classDef _ _ _ b => 1 + PyNode.sizeList b
  | .funcDef _ _ _ _ b => 1 + PyNode.sizeList b

/-- Number of nodes in a forest. -/
def PyNode.sizeList : List PyNode → Nat
  | [] => 0
  | n :: ns => PyNode.size n + PyNode.sizeList ns

end

/-- Total node count of a breadth-first queue. -/
def queueSize (q : List (PyNode × List String)) : Nat :=
  PyNode.sizeList (q.map Prod.fst)

/-- Breadth-first walk over the declaration skeleton in ast.walk order,
pairing each node with the chain tokens of its enclosing declarations
(outermost first).  Fuel-indexed for kernel evaluation; one unit of fuel is
spent per visited node, so queueSize fuel suffices. -/
def walkFuel : Nat → List (PyNode × List String) → List (PyNode × List String)
  | 0, _ => []
  | _ + 1, [] => []
  | fuel + 1, (n, path) :: rest =>
    (n, path) :: walkFuel fuel (rest ++ n.body.map (fun c => (c, path ++ [n.token])))

/-- Breadth-first walk of a module forest, ast.walk order. -/
def walkModule (tree : List PyNode) : List (PyNode × List String) :=
  let q := tree.map (fun n => (n, ([] : List String)))
  walkFuel (queueSize q) q

/-- A declaration record as produced by langraph.parse_python_structure:
the dictionary with keys type, name, lineno, end_lineno. -/
structure PyDeclRec where
  type : String
  name : String
  lineno : Option Nat
  end_lineno : Option Nat
deriving DecidableEq, Repr

/-- Stable insertion into a list sorted by the lineno-or-0 key. -/
def insertByKey (x : PyDeclRec) : List PyDeclRec → List PyDeclRec
  | [] => [x]
  | y :: ys =>
    if y.lineno.getD 0 ≤ x.lineno.getD 0 then y :: insertByKey x ys
    else x :: y :: ys

/-- Stable sort by the lineno-or-0 key (Python list.sort is stable). -/
def sortByLineno : List PyDeclRec → List PyDeclRec
  | [] => []
  | x :: xs => insertByKey x (sortByLineno xs)

/-- langraph.parse_python_structure: walk the parsed tree, record each
class / def node as a record of kind, name and line span, and sort the
records by start line. -/
def parse_python_structure (tree : List PyNode) : List PyDeclRec :=
  let items := (walkModule tree).map (fun x =>
    match x.1 with
    | .classDef nm l e _ => PyDeclRec.mk "class" nm (some l) (some e)
    | .funcDef nm _ l e _ => PyDeclRec.mk "def" nm (some l) (some e))
  sortByLineno items

/-- The selection key of git_module.py line 74: (lineno, end_lineno - lineno). -/
def candKey (n : PyNode) : Nat × Nat :=
  (n.lineno, n.endLineno - n.lineno)

/-- Strict lexicographic comparison on selection keys. -/
def lexGt (a b : Nat × Nat) : Bool :=
  b.1 < a.1 || (a.1 = b.1 && b.2 < a.2)

/-- Python max over a nonempty candidate list with the key of line 74: the
first candidate whose key is lexicographically maximal. -/
def pickMaxCand : List (PyNode × List String) → Option (PyNode × List String)
  | [] => none
  | c :: cs =>
    some (cs.foldl (fun best x => if lexGt (candKey x.1) (candKey best.1) then x else best) c)

/-- The candidate set of find_enclosing_python_chain: declaration nodes whose
inclusive span contains the target line, walked in ast.walk order. -/
def candidatesOf (tree : List PyNode) (targetLineno : Nat) : List (PyNode × List String) :=
  (walkModule tree).filter
    (fun x => x.1.lineno ≤ targetLineno && targetLineno ≤ x.1.endLineno)

/-- git_module.find_enclosing_python_chain: none when the parse failed (the
tree argument is none) or when no declaration span contains the target line;
otherwise the joined outer-to-inner chain of the candidate selected by the
key of line 74, reached by walking the parent map upward. -/
def find_enclosing_python_chain (tree : Option (List PyNode)) (target_lineno : Nat) :
    Option String :=
  match tree with
  | none => none
  | some forest =>
    match pickMaxCand (candidatesOf forest target_lineno) with
    | none => none
    | some (n, path) =>
      let chain := path ++ [n.token]
      if chain = [] then some "module" else some (String.intercalate " -> " chain)

/-- A declaration found by the regex scan of find_enclosing_by_regex. -/
structure RegexDecl where
  lineno : Nat
  indent : Nat
  kind : String
  name : String
deriving DecidableEq, Repr

/-- Length of a leading-whitespace run after str.expandtabs(4). -/
def expandTabsLen (cs : List Char) : Nat :=
  cs.foldl (fun col c => if c = '\t' then col + (4 - col % 4) else col + 1) 0

/-- Match the declaration pattern of git_module.py line 96 against one line:
optional leading whitespace, the def or class keyword, whitespace, then an
identifier.  Returns the expanded indent width and the name. -/
def matchDeclLine (cs : List Char) : Option (Nat × String) :=
  let ws := cs.takeWhile pySpace
  let rest := cs.drop ws.length
  let afterKw : Option (List Char) :=
    if startsWithL "def".data rest then some (rest.drop 3)
    else if startsWithL "class".data rest then some (rest.drop 5)
    else none
  match afterKw with
  | none => none
  | some r =>
    let sp := r.takeWhile pySpace
    if sp = [] then none
    else
      match r.drop sp.length with
      | c :: cs2 =>
        if c.isAlpha || c = '_' then
          some (expandTabsLen ws, String.mk (c :: cs2.takeWhile isWordChar))
        else none
      | [] => none

/-- The declaration collection loop of find_enclosing_by_regex: every line
matching the pattern, with its 1-indexed line number, expanded indent, kind
(def when the stripped line starts with def, else class) and name. -/
def scanRegexDecls (srcLines : List (List Char)) : List RegexDecl :=
  srcLines.enum.filterMap (fun p =>
    match matchDeclLine p.2 with
    | some (ind, nm) =>
      some ⟨p.1 + 1, ind,
        if startsWithL "def".data (pyStrip p.2) then "def" else "class", nm⟩
    | none => none)

/-- One step of the chain-building loop of find_enclosing_by_regex: keep the
declaration when its indent is strictly below the running minimum. -/
def chainStepCode (acc : List String × Nat) (d : RegexDecl) : List String × Nat :=
  if d.indent < acc.2 then (acc.1 ++ [d.kind ++ " " ++ d.name], d.indent) else acc

/-- The chain-building loop of find_enclosing_by_regex: walk the declarations
at or before the target line in reverse, keep one whenever its indent is
strictly below the running minimum (seeded with the 10^9 sentinel), then
reverse to outer-to-inner order. -/
def regexChainCode (decls : List RegexDecl) (targetLineno : Nat) : List String :=
  let prev := decls.filter (fun d => d.lineno ≤ targetLineno)
  ((prev.reverse.foldl chainStepCode ([], 10 ^ 9)).1).reverse

/-- Claim-side step for C8, following the wording of the specification: the
running minimum starts at infinity, modelled as none. -/
def chainStepClaim (acc : List String × Option Nat) (d : RegexDecl) :
    List String × Option Nat :=
  match acc.2 with
  | none => (acc.1 ++ [d.kind ++ " " ++ d.name], some d.indent)
  | some m =>
    if d.indent < m then (acc.1 ++ [d.kind ++ " " ++ d.name], some d.indent) else acc

/-- Claim-side chain construction for C8, following the wording of the
specification: declarations at or before the target line, walked in reverse
with a running minimum indentation initialized to infinity, appending on
strict decrease, then reversed to outer-to-inner order. -/
def regexChainClaim (decls : List RegexDecl) (targetLineno : Nat) : List String :=
  let prev := decls.filter (fun d => d.lineno ≤ targetLineno)
  ((prev.reverse.foldl chainStepClaim ([], none)).1).reverse

/-- Join a chain as find_enclosing_by_regex renders it. -/
def joinChain (chain : List String) : String :=
  if chain = [] then "module" else String.intercalate " -> " chain

/-- git_module.find_enclosing_by_regex: module when the target line is
outside the file, otherwise the joined indentation chain. -/
def find_enclosing_by_regex (source_text : String) (target_lineno : Nat) : String :=
  let srcLines := pySplitLines source_text.data
  if target_lineno < 1 || srcLines.length ≤ target_lineno - 1 then "module"
  else joinChain (regexChainCode (scanRegexDecls srcLines) target_lineno)

/-- The structural-then-regex resolution of the module-level diff loop of
git_module.py lines 152-158 for a Python file: the AST chain when the
structural resolver returns one, else the regex fallback. -/
def resolveEnclosingChain (tree : Option (List PyNode)) (source_text : String)
    (lineno : Nat) : String :=
  match find_enclosing_python_chain tree lineno with
  | some chain => chain
  | none => find_enclosing_by_regex source_text lineno

/-- Try a keyword followed by mandatory whitespace; some remainder on
success (used for the optional export / async groups of the JavaScript
declaration pattern, docgen.py line 68). -/
def tryOptKw (kw cs : List Char) : Option (List Char) :=
  if kw.isPrefixOf cs then
    let r := cs.drop kw.length
    let sp := r.takeWhile pySpace
    if sp = [] then none else some (r.drop sp.length)
  else none

/-- The identifier-and-terminator tail of the JavaScript declaration
pattern: an identifier, optional whitespace, then an equals sign or an
opening parenthesis.  Returns the captured name. -/
def jsParseName (cs : List Char) : Option String :=
  match cs with
  | c :: rest =>
    if isJsIdentStart c then
      let w := rest.takeWhile isWordChar
      match (rest.drop w.length).dropWhile pySpace with
      | '=' :: _ => some (String.mk (c :: w))
      | '(' :: _ => some (String.mk (c :: w))
      | _ => none
    else none
  | [] => none

/-- The keyword alternation of the JavaScript declaration pattern, each
keyword (function with an optional star, const, let, var, class) followed by
mandatory whitespace, then the name tail. -/
def jsAfterKeyword (cs : List Char) : Option String :=
  let post (r : List Char) : Option String :=
    let sp := r.takeWhile pySpace
    if sp = [] then none else jsParseName (r.drop sp.length)
  if startsWithL "function".data cs then
    let r := cs.drop 8
    post (if startsWithL "*".data r then r.drop 1 else r)
  else if startsWithL "const".data cs then post (cs.drop 5)
  else if startsWithL "let".data cs then post (cs.drop 3)
  else if startsWithL "var".data cs then post (cs.drop 3)
  else if startsWithL "class".data cs then post (cs.drop 5)
  else none

/-- The declaration pattern of _parse_javascript_docstrings applied to one
line, with the backtracking of the two optional groups (export, async). -/
def jsFuncMatch (line : List Char) : Option String :=
  let cs := line.dropWhile pySpace
  let asyncLevel (r : List Char) : Option String :=
    match tryOptKw "async".data r with
    | some r2 =>
      match jsAfterKeyword r2 with
      | some n => some n
      | none => jsAfterKeyword r
    | none => jsAfterKeyword r
  match tryOptKw "export".data cs with
  | some cs2 =>
    match asyncLevel cs2 with
    | some n => some n
    | none => asyncLevel cs
  | none => asyncLevel cs

/-- The doc-block search of docgen.py lines 70 and 102: the content between
the leftmost slash-star-star opener and the first star-slash closer after
it. -/
def jsdocSearch (cs : List Char) : Option (List Char) :=
  match findSplit "/**".data cs with
  | none => none
  | some (_, rest) =>
    match findSplit "*/".data rest with
    | none => none
    | some (mid, _) => some mid

/-- The comment cleanup of docgen.py lines 83-86 and 114-116: strip the raw
block, strip each line, remove leading stars, drop blank lines, rejoin. -/
def cleanDocBlock (raw : List Char) : List Char :=
  let doc := pyStrip raw
  let kept := ((pySplitLines doc).map
    (fun l => pyStrip (lstripWith (fun c => c = '*') (pyStrip l)))).filter
    (fun l => l ≠ [])
  pyStrip (joinNl kept)

/-- Per-line step of _parse_javascript_docstrings: on a declaration match,
search the previous five lines for a doc block and emit a keyed entry when
the cleaned text is nonempty. -/
def jsProcessLine (lines : List (List Char)) (i : Nat) (line : List Char) :
    Option ((String × Nat × Nat) × String) :=
  match jsFuncMatch line with
  | none => none
  | some name =>
    match jsdocSearch (joinNl ((lines.take i).drop (i - 5))) with
    | none => none
    | some raw =>
      let doc := cleanDocBlock raw
      if doc = [] then none
      else
        let kind := if containsSub "class".data line then "class" else "function"
        some ((kind ++ " " ++ name, i + 1, i + 1), String.mk doc)

/-- docgen._parse_javascript_docstrings: scan every line for the declaration
pattern and attach the doc block found in the five-line look-behind window. -/
def _parse_javascript_docstrings (source_text : String) :
    List ((String × Nat × Nat) × String) :=
  let lines := pySplitLines source_text.data
  lines.enum.filterMap (fun p => jsProcessLine lines p.1 p.2)

/-- The identifier-and-terminator tail of the Java declaration pattern: an
identifier, optional whitespace, then an opening parenthesis or brace. -/
def javaName (cs : List Char) : Option String :=
  match cs with
  | c :: rest =>
    if isJsIdentStart c then
      let w := rest.takeWhile isWordChar
      match (rest.drop w.length).dropWhile pySpace with
      | '(' :: _ => some (String.mk (c :: w))
      | ch :: _ => if ch = Char.ofNat 123 then some (String.mk (c :: w)) else none
      | [] => none
    else none
  | [] => none

/-- The type branch of the Java declaration pattern: a nonempty run of word,
angle-bracket or square-bracket characters, mandatory whitespace, then the
name tail. -/
def javaTypeBranch (cs : List Char) : Option String :=
  let tw := cs.takeWhile (fun c => isWordChar c || c = '<' || c = '>' || c = '[' || c = ']')
  if tw = [] then none
  else
    let r := cs.drop tw.length
    let sp := r.takeWhile pySpace
    if sp = [] then none else javaName (r.drop sp.length)

/-- The keyword-or-type alternation of the Java declaration pattern
(docgen.py line 100), tried in the order of the regex. -/
def javaDeclCore (cs : List Char) : Option String :=
  let kwBranch (kw : List Char) : Option String :=
    if kw.isPrefixOf cs then javaName (cs.drop kw.length) else none
  match kwBranch "class".data with
  | some n => some n
  | none =>
    match kwBranch "interface".data with
    | some n => some n
    | none =>
      match kwBranch "enum".data with
      | some n => some n
      | none =>
        match kwBranch "void".data with
        | some n => some n
        | none => javaTypeBranch cs

/-- The Java declaration pattern of docgen.py line 100 applied to one line,
with the backtracking of the optional access-modifier and static groups. -/
def javaMatchLine (line : List Char) : Option String :=
  let cs := line.dropWhile pySpace
  let afterAccess (r : List Char) : Option String :=
    let r2 := r.dropWhile pySpace
    match (if "static".data.isPrefixOf r2
           then javaDeclCore ((r2.drop 6).dropWhile pySpace)
           else none) with
    | some n => some n
    | none => javaDeclCore r2
  let tryAcc (kw : List Char) : Option String :=
    if kw.isPrefixOf cs then afterAccess (cs.drop kw.length) else none
  match tryAcc "public".data with
  | some n => some n
  | none =>
    match tryAcc "private".data with
    | some n => some n
    | none =>
      match tryAcc "protected".data with
      | some n => some n
      | none => afterAccess cs

/-- Per-line step of _parse_java_docstrings: on a declaration match, search
the previous ten lines for a doc block and emit a keyed entry when the
cleaned text is nonempty. -/
def javaProcessLine (lines : List (List Char)) (i : Nat) (line : List Char) :
    Option ((String × Nat × Nat) × String) :=
  match javaMatchLine line with
  | none => none
  | some name =>
    match jsdocSearch (joinNl ((lines.take i).drop (i - 10))) with
    | none => none
    | some raw =>
      let doc := cleanDocBlock raw
      if doc = [] then none
      else
        let kind :=
          if containsSub "class".data line || containsSub "interface".data line ||
             containsSub "enum".data line then "class" else "method"
        some ((kind ++ " " ++ name, i + 1, i + 1), String.mk doc)

/-- docgen._parse_java_docstrings: scan every line for the declaration
pattern and attach the doc block found in the ten-line look-behind window. -/
def _parse_java_docstrings (source_text : String) :
    List ((String × Nat × Nat) × String) :=
  let lines := pySplitLines source_text.data
  lines.enum.filterMap (fun p => javaProcessLine lines p.1 p.2)

/-- The start line used by the renderer: the lineno value or 0 (docgen.py
line 317). -/
def declStartLine (d : PyDeclRec) : Nat :=
  d.lineno.getD 0

/-- The end line used by the renderer: the end_lineno value when present and
truthy, else the start line (docgen.py line 318). -/
def declEndLine (d : PyDeclRec) : Nat :=
  match d.end_lineno with
  | some e => if e = 0 then declStartLine d else e
  | none => declStartLine d

/-- The per-declaration documentation resolution of docgen.py lines 320-325:
an exact existing-doc match on the combined kind-name key and the line span,
falling back when absent or empty to the generated text keyed by path, kind
and name, falling back to the fixed placeholder; the result is stripped. -/
def resolveDocBody (rel_path kind name : String) (start endv : Nat)
    (existing : List ((String × Nat × Nat) × String)) (llm : List (String × String)) :
    String :=
  let llmDoc := (lookupA llm (rel_path ++ ":" ++ kind ++ ":" ++ name)).getD ""
  let doc :=
    match lookupA existing (kind ++ " " ++ name, start, endv) with
    | some d => if d = "" then llmDoc else d
    | none => llmDoc
  let body := if doc = "" then "No documentation available." else doc
  String.mk (pyStrip body.data)

/-- The section header line of docgen.py line 319: kind, backquoted name,
and the inclusive line span. -/
def headerLineChars (d : PyDeclRec) : List Char :=
  "### ".data ++
    (d.type.data ++
      (' ' :: bq ::
        (d.name.data ++
          (bq ::
            (" (lines ".data ++
              (natStrL (declStartLine d) ++
                ('-' :: (natStrL (declEndLine d) ++ [')']))))))))

/-- One rendered section of docgen._render_markdown_for_file: the header
line, a blank line, the resolved body, a blank line. -/
def renderSectionChars (rel_path : String)
    (existing : List ((String × Nat × Nat) × String)) (llm : List (String × String))
    (d : PyDeclRec) : List Char :=
  headerLineChars d ++ '\n' :: '\n' ::
    ((resolveDocBody rel_path d.type d.name (declStartLine d) (declEndLine d)
        existing llm).data ++ ['\n', '\n'])

/-- The template heading of docgen.py lines 305-310, without its trailing
blank line. -/
def templateHeadingLine (template : String) : List Char :=
  if template = "api" then "## API Documentation".data
  else if template = "class_breakdown" then "## Class and Function Breakdown".data
  else "## Documentation".data

/-- docgen._render_markdown_for_file as characters: title line, template
heading, then one section per declaration in list order, or a fixed marker
when there are no declarations. -/
def renderDocChars (rel_path : String) (decls : List PyDeclRec)
    (existing : List ((String × Nat × Nat) × String)) (llm : List (String × String))
    (template : String) : List Char :=
  ("# ".data ++ rel_path.data) ++ '\n' :: '\n' ::
    (templateHeadingLine template ++ '\n' :: '\n' ::
      (if decls = [] then "(No declarations found)".data ++ ['\n']
       else (decls.map (renderSectionChars rel_path existing llm)).flatten))

/-- docgen._render_markdown_for_file. -/
def _render_markdown_for_file (rel_path _language _text : String)
    (decls : List PyDeclRec)
    (existing : List ((String × Nat × Nat) × String)) (llm : List (String × String))
    (template : String) : String :=
  String.mk (renderDocChars rel_path decls existing llm template)

/-- Modelled from the spec: re-parsing one line of a rendered document as a
section header.  The spec round-trip property re-parses the headers written
by the renderer; the repository has no such parser, so this follows the
header layout the spec describes (kind, backquoted name, line span). -/
def headerLineParse (cs : List Char) : Option (String × String × Nat × Nat) :=
  if "### ".data.isPrefixOf cs then
    let r := cs.drop 4
    let kind := r.takeWhile (fun c => c ≠ ' ')
    match r.drop kind.length with
    | ' ' :: c1 :: r2 =>
      if c1 = bq then
        let name := r2.takeWhile (fun c => c ≠ bq)
        match r2.drop name.length with
        | c2 :: r3 =>
          if c2 = bq && " (lines ".data.isPrefixOf r3 then
            let r4 := r3.drop 8
            let ds1 := r4.takeWhile Char.isDigit
            if ds1 = [] then none
            else
              match r4.drop ds1.length with
              | '-' :: r5 =>
                let ds2 := r5.takeWhile Char.isDigit
                if ds2 = [] then none
                else
                  match r5.drop ds2.length with
                  | [')'] => some (String.mk kind, String.mk name, digitsVal ds1, digitsVal ds2)
                  | _ => none
              | _ => none
          else none
        | [] => none
      else none
    | _ => none
  else none

/-- Modelled from the spec: re-parse all section headers of a rendered
document, in order. -/
def parseDocHeaders (doc : String) : List (String × String × Nat × Nat) :=
  (splitLines doc.data).filterMap headerLineParse

/-- The section-header tuple that rendering a declaration exposes. -/
def declTuple (d : PyDeclRec) : String × String × Nat × Nat :=
  (d.type, d.name, declStartLine d, declEndLine d)

/-- One history record, with the fields docgen.generate_documentation stores
(docgen.py lines 580-587). -/
structure HistoryEntry where
  source_commit : Option String
  template : String
  manual_override : Bool
  export_formats : List String
  touched : List String
  total_files : Nat
deriving DecidableEq, Repr

/-- docgen._update_history: parse the stored entry list (an unreadable or
missing store reads as the empty list) and append the new entry at the end.
The store argument is the parsed content of the history file. -/
def _update_history (store : Option (List HistoryEntry)) (entry : HistoryEntry) :
    List HistoryEntry :=
  store.getD [] ++ [entry]

/-- A file on disk as the pipeline sees it: its byte size and its text, none
when reading raises. -/
structure FsFile where
  size : Nat
  content : Option String
deriving DecidableEq, Repr

/-- langraph.read_text_file: none when the stat call raises (the file
argument is none), when the size exceeds 1,000,000 bytes, or when reading
raises; otherwise the text. -/
def read_text_file (file : Option FsFile) : Option String :=
  match file with
  | none => none
  | some f => if f.size > 1000000 then none else f.content

/-- The per-file admission loop of docgen.generate_documentation lines
517-541: keep a file when its language is known, its text is readable, and
it has at least one declaration. -/
def filesDataPipeline (scanDecls : String → String → List PyDeclRec)
    (entries : List (String × Option FsFile × String)) :
    List (String × String × List PyDeclRec) :=
  entries.filterMap (fun e =>
    if e.2.2 = "unknown" then none
    else
      match read_text_file e.2.1 with
      | none => none
      | some txt =>
        let ds := scanDecls txt e.2.2
        if ds = [] then none else some (e.1, txt, ds))

/-- The touched-file list of docgen.generate_documentation lines 550-562:
one entry per admitted file, in admission order. -/
def touchedFilesPipeline (scanDecls : String → String → List PyDeclRec)
    (entries : List (String × Option FsFile × String)) : List String :=
  (filesDataPipeline scanDecls entries).map (fun x => x.1)

/-- Non-strict lexicographic order on selection keys. -/
def lexLe (a b : Nat × Nat) : Prop :=
  a.1 < b.1 ∨ (a.1 = b.1 ∧ a.2 ≤ b.2)

/-- Claim-side comparison for C3, following the wording of the
specification: larger start line wins, and on equal start lines the smaller
span wins. -/
def lexGtSpec (a b : Nat × Nat) : Bool :=
  b.1 < a.1 || (a.1 = b.1 && a.2 < b.2)

/-- Claim-side selection for C3: the first candidate maximal for lexGtSpec. -/
def pickSpecInnermost : List (PyNode × List String) → Option (PyNode × List String)
  | [] => none
  | c :: cs =>
    some (cs.foldl (fun best x => if lexGtSpec (candKey x.1) (candKey best.1) then x else best) c)

/-- Claim-side chain for C3: find_enclosing_python_chain with the selection
rule the claim states. -/
def specSelectChain (tree : Option (List PyNode)) (target_lineno : Nat) : Option String :=
  match tree with
  | none => none
  | some forest =>
    match pickSpecInnermost (candidatesOf forest target_lineno) with
    | none => none
    | some (n, path) =>
      let chain := path ++ [n.token]
      if chain = [] then some "module" else some (String.intercalate " -> " chain)

/-- Proper span containment between two scan records. -/
def recContains (a b : PyDeclRec) : Bool :=
  match a.lineno, a.end_lineno, b.lineno, b.end_lineno with
  | some al, some ae, some bl, some be =>
    (al ≤ bl && be ≤ ae) && (al < bl || be < ae)
  | _, _, _, _ => false

/-- Innermost record of a list: the one with the largest start line. -/
def pickInnerRec : List PyDeclRec → Option PyDeclRec
  | [] => none
  | a :: rest =>
    some (rest.foldl (fun best x =>
      if best.lineno.getD 0 < x.lineno.getD 0 then x else best) a)

/-- Modelled from the claim for C5: the immediate enclosing declaration of a
scanned record, recovered from the tree as the innermost scanned record
whose span properly contains it. -/
def specImmediateEnclosing (tree : List PyNode) (r : PyDeclRec) : Option PyDeclRec :=
  pickInnerRec ((parse_python_structure tree).filter (fun a => recContains a r))

/-- Two-declaration nested example: class A on lines 1-5 holding def b on
lines 3-5. -/
def c5TreeNested : List PyNode :=
  [PyNode.classDef "A" 1 5 [PyNode.funcDef "b" false 3 5 []]]

/-- The same def b on lines 3-5, but at module level. -/
def c5TreeFlat : List PyNode :=
  [PyNode.funcDef "b" false 3 5 []]

/-- The scan record that both example trees produce for def b. -/
def c5RecB : PyDeclRec := ⟨"def", "b", some 3, some 5⟩

/-- The concrete Python source of the C2 test property: class A spanning
lines 1-10, def b spanning lines 3-5, and nothing after line 10. -/
def c2Src10 : String :=
  "class A:\n    x = 1\n    def b(self):\n        y = 2\n        return y\n    z = 3\n    w = 4\n    u = 5\n    v = 6\n    t = 7"

/-- The same source extended with two module-level lines 11 and 12. -/
def c2Src12 : String :=
  "class A:\n    x = 1\n    def b(self):\n        y = 2\n        return y\n    z = 3\n    w = 4\n    u = 5\n    v = 6\n    t = 7\nmm = 1\nnn = 2"

/-- The declaration skeleton that parsing either C2 source yields. -/
def c2Tree : List PyNode :=
  [PyNode.classDef "A" 1 10 [PyNode.funcDef "b" false 3 5 []]]

/-- A tree with two candidates tied on start line: class A and def b both
start on line 3 (not producible by the Python parser, but in the domain of
the selection rule the claim describes). -/
def c3Tree : List PyNode :=
  [PyNode.classDef "A" 3 10 [PyNode.funcDef "b" false 3 5 []]]

/-- A two-line source whose only declaration is def a on line 1. -/
def c8Src : String := "def a():\n    return 1"

/-- JavaScript source whose doc block is separated from the declaration by a
three-line gap. -/
def jsGapSrc : String :=
  "/** Adds two numbers. */\nx = 1\ny = 2\nz = 3\nfunction foo()"

/-- Java source whose doc block is separated from the declaration by an
eight-line gap. -/
def javaGapSrc : String :=
  "/** Runs it. */\nint a;\nint b;\nint c;\nint d;\nint e;\nint f;\nint g;\nint h;\npublic void run()"

/-- The declaration rendered in the C9 counterexample. -/
def c9Decl : PyDeclRec := ⟨"def", "f", some 1, some 2⟩

/-- An existing-docs table whose body text spoofs a section header. -/
def c9Existing : List ((String × Nat × Nat) × String) :=
  [(("def f", 1, 2),
    "### def " ++ String.mk [bq] ++ "g" ++ String.mk [bq] ++ " (lines 3-4)")]

/-- Realization of the optional running minimum as the sentinel the code
uses: infinity (none) is 10^9. -/
def omRep : Option Nat → Nat
  | none => 10 ^ 9
  | some m => m

/-- Witness dictionaries for C6. -/
def c6Existing : List ((String × Nat × Nat) × String) := [(("def f", 1, 2), "doc1")]

/-- Witness generated-text table for C6. -/
def c6Llm : List (String × String) := [("a.py:def:g", "doc2")]

/-- Witness file table for C10: one small readable python file. -/
def c10Entries : List (String × Option FsFile × String) :=
  [("a.py", some ⟨10, some "def f(): pass"⟩, "python")]

/-- Witness scanner for C10: one declaration for any text. -/
def c10Scan : String → String → List PyDeclRec :=
  fun _ _ => [⟨"def", "f", some 1, some 1⟩]

/-- Witness declaration for C9: an ordinary documented definition. -/
def c9WitnessDecl : PyDeclRec := ⟨"def", "g", some 3, some 4⟩

/-- Witness existing-docs table for C9. -/
def c9WitnessExisting : List ((String × Nat × Nat) × String) :=
  [(("def g", 3, 4), "Adds two numbers.")]

/-- C1.  The spec example claims the addition after a deletion in a hunk
headed at minus 5 plus 5 carries new-axis line 6; the parser gives line 5,
because the deletion advances only the old-axis counter.  This closed
computation shows the claimed output is not what the code produces. -/
theorem C1_counterexample :
    (parse_patch_for_changes c1Patch).map (fun c => (c.type, c.lineno)) =
      [(ChangeType.del, 5), (ChangeType.add, 5)] ∧
    (parse_patch_for_changes c1Patch).map (fun c => (c.type, c.lineno)) ≠
      [(ChangeType.del, 5), (ChangeType.add, 6)] := by
  decide

/-- C1 (amended).  For the hunk header at minus 5 plus 5 whose first payload
line is a deletion and second an addition, the parser emits del at old line
5 and add at new line 5, with the sign column stripped from the content. -/
theorem C1_hunk_line_numbers :
    parse_patch_for_changes c1Patch =
      [⟨ChangeType.del, 5, "old line".data⟩, ⟨ChangeType.add, 5, "new line".data⟩] := by
  decide

/-- C2.  On a source where class A spans lines 1-10 with def b on lines 3-5
and the file extends to line 12 with module-level code, resolving line 12
does not give the module chain: the structural resolver finds no candidate
and returns none, and the regex fallback reports class A then def b. -/
theorem C2_counterexample :
    resolveEnclosingChain (some c2Tree) c2Src12 12 = "class A -> def b" ∧
    resolveEnclosingChain (some c2Tree) c2Src12 12 ≠ "module" := by
  decide

/-- C2 (amended).  On the ten-line source where class A spans lines 1-10
with def b on lines 3-5, resolution gives the chain class A then def b for
line 4, the chain class A for line 8, and the module (empty) chain for line
12, which lies beyond the end of the file. -/
theorem C2_scope_resolution_example :
    resolveEnclosingChain (some c2Tree) c2Src10 4 = "class A -> def b" ∧
    resolveEnclosingChain (some c2Tree) c2Src10 8 = "class A" ∧
    resolveEnclosingChain (some c2Tree) c2Src10 12 = "module" := by
  decide

/-- C3.  On two candidates tied on start line (class A spanning 3-10 and
def b spanning 3-5, target line 4), the code selects the one with the
larger span, class A, whereas the selection rule the claim states (minimize
span on ties) would select def b and produce the longer chain. -/
theorem C3_counterexample :
    find_enclosing_python_chain (some c3Tree) 4 = some "class A" ∧
    specSelectChain (some c3Tree) 4 = some "class A -> def b" ∧
    find_enclosing_python_chain (some c3Tree) 4 ≠ specSelectChain (some c3Tree) 4 := by
  decide

/-- C5.  The scan records of parse_python_structure carry no back-reference
to the enclosing declaration: the same record (def b, lines 3-5) is produced
both by a tree where it sits inside class A and by a tree where it is at
module level, so no function of the record alone can return the immediate
enclosing declaration recorded at scan time. -/
theorem C5_no_backreference_field :
    ¬ ∃ f : PyDeclRec → Option PyDeclRec,
      ∀ (t : List PyNode) (r : PyDeclRec), r ∈ parse_python_structure t →
        f r = specImmediateEnclosing t r := by
  rintro ⟨f, hf⟩
  have h1 := hf c5TreeNested c5RecB (by decide)
  have h2 := hf c5TreeFlat c5RecB (by decide)
  have h3 : specImmediateEnclosing c5TreeNested c5RecB =
      specImmediateEnclosing c5TreeFlat c5RecB := h1 ▸ h2
  exact absurd h3 (by decide)

/-- C5 (amended).  A scanned declaration record does not determine its
immediate enclosing declaration: two trees produce the identical record for
def b with different enclosing declarations, so the enclosing chain must be
recomputed from the tree on each query, as find_enclosing_python_chain does
by rebuilding a parent map. -/
theorem C5_record_does_not_determine_parent :
    ∃ (t1 t2 : List PyNode) (r : PyDeclRec),
      r ∈ parse_python_structure t1 ∧ r ∈ parse_python_structure t2 ∧
      specImmediateEnclosing t1 r ≠ specImmediateEnclosing t2 r :=
  ⟨c5TreeNested, c5TreeFlat, c5RecB, by decide, by decide, by decide⟩

/-- C7.  Updating the history store appends exactly one entry: the length
grows by one, the prior entries form an unchanged prefix in their original
order, and the new entry is last. -/
theorem C7_history_append_only (prior : List HistoryEntry) (e : HistoryEntry) :
    (_update_history (some prior) e).length = prior.length + 1 ∧
    (_update_history (some prior) e).take prior.length = prior ∧
    (_update_history (some prior) e).getLast? = some e := by
  refine ⟨?_, ?_, ?_⟩ <;> simp [_update_history]

/-- Reflexivity of the key order. -/
theorem lexLe_refl (a : Nat × Nat) : lexLe a a :=
  Or.inr ⟨rfl, Nat.le_refl _⟩

/-- Transitivity of the key order. -/
theorem lexLe_trans {a b c : Nat × Nat} (h1 : lexLe a b) (h2 : lexLe b c) : lexLe a c := by
  unfold lexLe at *
  omega

/-- A failed strict comparison gives the non-strict order. -/
theorem lexGt_false_le {a b : Nat × Nat} (h : lexGt a b = false) : lexLe a b := by
  simp [lexGt] at h
  unfold lexLe
  omega

/-- A successful strict comparison gives the reverse non-strict order. -/
theorem lexGt_true_le {a b : Nat × Nat} (h : lexGt a b = true) : lexLe b a := by
  simp [lexGt] at h
  unfold lexLe
  omega

/-- The running fold of pickMaxCand returns an element of the accumulator or
the list whose key dominates the accumulator and every list element. -/
theorem foldMax_spec (cs : List (PyNode × List String)) :
    ∀ acc : PyNode × List String,
      (cs.foldl (fun best x => if lexGt (candKey x.1) (candKey best.1) then x else best) acc
          = acc ∨
        cs.foldl (fun best x => if lexGt (candKey x.1) (candKey best.1) then x else best) acc
          ∈ cs) ∧
      lexLe (candKey acc.1)
        (candKey ((cs.foldl
          (fun best x => if lexGt (candKey x.1) (candKey best.1) then x else best) acc).1)) ∧
      ∀ c ∈ cs,
        lexLe (candKey c.1)
          (candKey ((cs.foldl
            (fun best x => if lexGt (candKey x.1) (candKey best.1) then x else best) acc).1)) := by
  induction cs with
  | nil =>
    intro acc
    exact ⟨Or.inl rfl, lexLe_refl _, by simp⟩
  | cons x cs ih =>
    intro acc
    by_cases hxa : lexGt (candKey x.1) (candKey acc.1) = true
    · have step : (x :: cs).foldl
          (fun best x => if lexGt (candKey x.1) (candKey best.1) then x else best) acc
          = cs.foldl
            (fun best x => if lexGt (candKey x.1) (candKey best.1) then x else best) x := by
        simp [List.foldl_cons, hxa]
      obtain ⟨hm, hacc, hall⟩ := ih x
      rw [step]
      refine ⟨?_, ?_, ?_⟩
      · rcases hm with h | h
        · exact Or.inr (by rw [h]; exact List.mem_cons_self x cs)
        · exact Or.inr (List.mem_cons_of_mem x h)
      · exact lexLe_trans (lexGt_true_le hxa) hacc
      · intro c hc
        rcases List.mem_cons.mp hc with rfl | hc
        · exact hacc
        · exact hall c hc
    · have hxa' : lexGt (candKey x.1) (candKey acc.1) = false := by
        simpa using hxa
      have step : (x :: cs).foldl
          (fun best x => if lexGt (candKey x.1) (candKey best.1) then x else best) acc
          = cs.foldl
            (fun best x => if lexGt (candKey x.1) (candKey best.1) then x else best) acc := by
        simp [List.foldl_cons, hxa']
      obtain ⟨hm, hacc, hall⟩ := ih acc
      rw [step]
      refine ⟨?_, ?_, ?_⟩
      · rcases hm with h | h
        · exact Or.inl h
        · exact Or.inr (List.mem_cons_of_mem x h)
      · exact hacc
      · intro c hc
        rcases List.mem_cons.mp hc with rfl | hc
        · exact lexLe_trans (lexGt_false_le hxa') hacc
        · exact hall c hc

/-- C3 (amended).  The candidate selected from a nonempty candidate list is
one of the candidates, and its key (start_line, span) is lexicographically
maximal: start_line is maximized first and, among candidates tied on
start_line, the larger span wins, not the smaller one the claim states. -/
theorem C3_selected_key_is_lex_max (hd : PyNode × List String)
    (cs : List (PyNode × List String)) (m : PyNode × List String)
    (h : pickMaxCand (hd :: cs) = some m) :
    (m = hd ∨ m ∈ cs) ∧ ∀ c ∈ hd :: cs, lexLe (candKey c.1) (candKey m.1) := by
  have hm : m = cs.foldl
      (fun best x => if lexGt (candKey x.1) (candKey best.1) then x else best) hd := by
    have := h
    simp only [pickMaxCand, Option.some.injEq] at this
    exact this.symm
  obtain ⟨hmem, hacc, hall⟩ := foldMax_spec cs hd
  subst hm
  refine ⟨hmem, ?_⟩
  intro c hc
  rcases List.mem_cons.mp hc with rfl | hc
  · exact hacc
  · exact hall c hc

/-- C3 witness: at the concrete tied candidate list of c3Tree and line 4,
the theorem instantiates to the dominance of the selected key (3, 7) over
the key (3, 2) of the nested def b. -/
theorem C3_witness :
    lexLe (candKey (PyNode.funcDef "b" false 3 5 [])) (3, 7) := by
  have h := C3_selected_key_is_lex_max
    ⟨PyNode.classDef "A" 3 10 [PyNode.funcDef "b" false 3 5 []], []⟩
    [⟨PyNode.funcDef "b" false 3 5 [], ["class A"]⟩]
    ⟨PyNode.classDef "A" 3 10 [PyNode.funcDef "b" false 3 5 []], []⟩
    rfl
  have hb := h.2 ⟨PyNode.funcDef "b" false 3 5 [], ["class A"]⟩ (by simp)
  simpa [candKey, PyNode.lineno, PyNode.endLineno] using hb

/-- The chain fold with the 10^9 sentinel and the chain fold with the
optional (infinite) minimum agree whenever every indent is below the
sentinel; the sentinel state is the omRep image of the optional state. -/
theorem chainFoldEquiv :
    ∀ (l : List RegexDecl) (acc : List String) (om : Option Nat),
      (∀ d ∈ l, d.indent < 10 ^ 9) →
      l.foldl chainStepCode (acc, omRep om) =
        ((l.foldl chainStepClaim (acc, om)).1, omRep (l.foldl chainStepClaim (acc, om)).2) := by
  intro l
  induction l with
  | nil => intro acc om _; rfl
  | cons d l ih =>
    intro acc om h
    have hd : d.indent < 10 ^ 9 := h d (List.mem_cons_self d l)
    have hrest : ∀ x ∈ l, x.indent < 10 ^ 9 := fun x hx => h x (List.mem_cons_of_mem d hx)
    have hd9 : d.indent < 1000000000 := by
      have : (10 : Nat) ^ 9 = 1000000000 := by norm_num
      omega
    cases om with
    | none =>
      have hstep : chainStepCode (acc, omRep none) d =
          (acc ++ [d.kind ++ " " ++ d.name], omRep (some d.indent)) := by
        simp [chainStepCode, omRep, hd9]
      have hstep' : chainStepClaim (acc, none) d =
          (acc ++ [d.kind ++ " " ++ d.name], some d.indent) := by
        simp [chainStepClaim]
      simp only [List.foldl_cons, hstep, hstep']
      exact ih (acc ++ [d.kind ++ " " ++ d.name]) (some d.indent) hrest
    | some m =>
      by_cases hlt : d.indent < m
      · have hstep : chainStepCode (acc, omRep (some m)) d =
            (acc ++ [d.kind ++ " " ++ d.name], omRep (some d.indent)) := by
          simp [chainStepCode, omRep, hlt]
        have hstep' : chainStepClaim (acc, some m) d =
            (acc ++ [d.kind ++ " " ++ d.name], some d.indent) := by
          simp [chainStepClaim, hlt]
        simp only [List.foldl_cons, hstep, hstep']
        exact ih (acc ++ [d.kind ++ " " ++ d.name]) (some d.indent) hrest
      · have hstep : chainStepCode (acc, omRep (some m)) d = (acc, omRep (some m)) := by
          simp [chainStepCode, omRep, hlt]
        have hstep' : chainStepClaim (acc, some m) d = (acc, some m) := by
          simp [chainStepClaim, hlt]
        simp only [List.foldl_cons, hstep, hstep']
        exact ih acc (some m) hrest

/-- C8 (amended).  For every target line inside the file (and every indent
below the 10^9 sentinel realizing infinity), the regex resolver returns
exactly the chain the claim describes: declarations at or before the target
walked in reverse under a running minimum indentation initialized to
infinity, appended on strict decrease, then reversed to outer-to-inner
order and joined. -/
theorem C8_bounded_target_builds_claim_chain (src : String) (t : Nat)
    (h1 : 1 ≤ t) (h2 : t ≤ (pySplitLines src.data).length)
    (h3 : ∀ d ∈ scanRegexDecls (pySplitLines src.data), d.indent < 10 ^ 9) :
    find_enclosing_by_regex src t =
      joinChain (regexChainClaim (scanRegexDecls (pySplitLines src.data)) t) := by
  have hcond : (decide (t < 1) || decide ((pySplitLines src.data).length ≤ t - 1)) = false := by
    simp only [Bool.or_eq_false_iff, decide_eq_false_iff_not]
    omega
  have hall : ∀ d ∈ ((scanRegexDecls (pySplitLines src.data)).filter
      (fun d => d.lineno ≤ t)).reverse, d.indent < 10 ^ 9 := by
    intro d hd
    exact h3 d (List.mem_of_mem_filter (List.mem_reverse.mp hd))
  have hfold := chainFoldEquiv (((scanRegexDecls (pySplitLines src.data)).filter
      (fun d => d.lineno ≤ t)).reverse) [] none hall
  have hchain : regexChainCode (scanRegexDecls (pySplitLines src.data)) t =
      regexChainClaim (scanRegexDecls (pySplitLines src.data)) t := by
    simp only [regexChainCode, regexChainClaim]
    have hcong := congrArg (fun p : List String × Nat => p.1.reverse) hfold
    simpa [omRep] using hcong
  simp only [find_enclosing_by_regex, hcond, Bool.false_eq_true, if_false]
  rw [hchain]

/-- C8.  For a target line beyond the end of the file the resolver does not
build the described chain: on the two-line source with def a, target line 5
returns module while the chain the claim describes is nonempty. -/
theorem C8_counterexample :
    find_enclosing_by_regex c8Src 5 = "module" ∧
    regexChainClaim (scanRegexDecls (pySplitLines c8Src.data)) 5 = ["def a"] ∧
    find_enclosing_by_regex c8Src 5 ≠
      joinChain (regexChainClaim (scanRegexDecls (pySplitLines c8Src.data)) 5) := by
  decide

/-- C8 witness: the amended theorem applied to the two-line source at
target line 1. -/
theorem C8_witness :
    find_enclosing_by_regex c8Src 1 =
      joinChain (regexChainClaim (scanRegexDecls (pySplitLines c8Src.data)) 1) :=
  C8_bounded_target_builds_claim_chain c8Src 1 (by decide) (by decide) (by decide)

/-- A successful findSplit decomposes the searched list around the pattern. -/
theorem findSplit_eq {pat : List Char} :
    ∀ {s pre post : List Char}, findSplit pat s = some (pre, post) →
      s = pre ++ pat ++ post := by
  intro s
  induction s with
  | nil =>
    intro pre post h
    simp only [findSplit] at h
    by_cases hp : pat = []
    · subst hp
      simp at h
      obtain ⟨h1, h2⟩ := h
      subst h1; subst h2
      rfl
    · simp [hp] at h
  | cons c cs ih =>
    intro pre post h
    simp only [findSplit] at h
    by_cases hp : pat.isPrefixOf (c :: cs) = true
    · rw [if_pos hp] at h
      obtain ⟨t, ht⟩ := (List.isPrefixOf_iff_prefix.mp hp)
      injection h with h'
      injection h' with h1 h2
      subst h1
      rw [← ht] at h2 ⊢
      rw [List.nil_append]
      rw [← h2]
      rw [List.drop_left]
    · rw [if_neg hp] at h
      cases hfs : findSplit pat cs with
      | none => rw [hfs] at h; exact absurd h (by simp)
      | some pr =>
        rw [hfs] at h
        obtain ⟨pre', post'⟩ := pr
        injection h with h'
        injection h' with h1 h2
        subst h1; subst h2
        have := ih hfs
        simp [this]

/-- A successful doc-block search means the searched text contains the
slash-star-star opener. -/
theorem jsdocSearch_opens {s m : List Char} (h : jsdocSearch s = some m) :
    ∃ a b, s = a ++ "/**".data ++ b := by
  unfold jsdocSearch at h
  cases hfs : findSplit "/**".data s with
  | none => rw [hfs] at h; exact absurd h (by simp)
  | some pr =>
    obtain ⟨pre, post⟩ := pr
    exact ⟨pre, post, findSplit_eq hfs⟩

/-- C4 (amended).  Every documentation entry either extractor emits comes
from a comment block opener inside the fixed look-behind window before the
declaration line: five lines for the JavaScript extractor and ten for the
Java extractor.  A comment block may therefore be attributed across a gap of
up to four (respectively nine) lines, and when the window holds no opener
the declaration gets no documentation. -/
theorem C4_doc_attribution_within_window (src : String) (key : String × Nat × Nat)
    (doc : String) :
    ((key, doc) ∈ _parse_javascript_docstrings src →
      ∃ a b, joinNl (((pySplitLines src.data).take (key.2.1 - 1)).drop (key.2.1 - 1 - 5)) =
        a ++ "/**".data ++ b) ∧
    ((key, doc) ∈ _parse_java_docstrings src →
      ∃ a b, joinNl (((pySplitLines src.data).take (key.2.1 - 1)).drop (key.2.1 - 1 - 10)) =
        a ++ "/**".data ++ b) := by
  constructor
  · intro h
    simp only [_parse_javascript_docstrings, List.mem_filterMap] at h
    obtain ⟨p, _, hp⟩ := h
    simp only [jsProcessLine] at hp
    cases hfm : jsFuncMatch p.2 with
    | none => rw [hfm] at hp; exact absurd hp (by simp)
    | some name =>
      rw [hfm] at hp
      cases hs : jsdocSearch (joinNl (((pySplitLines src.data).take p.1).drop (p.1 - 5))) with
      | none => rw [hs] at hp; exact absurd hp (by simp)
      | some raw =>
        rw [hs] at hp
        dsimp only at hp
        by_cases hempty : cleanDocBlock raw = []
        · rw [if_pos hempty] at hp; exact absurd hp (by simp)
        · rw [if_neg hempty] at hp
          have h1 := Option.some.inj hp
          rw [Prod.mk.injEq] at h1
          have hline : key.2.1 - 1 = p.1 := by
            rw [← h1.1]
            simp
          rw [hline]
          exact jsdocSearch_opens hs
  · intro h
    simp only [_parse_java_docstrings, List.mem_filterMap] at h
    obtain ⟨p, _, hp⟩ := h
    simp only [javaProcessLine] at hp
    cases hfm : javaMatchLine p.2 with
    | none => rw [hfm] at hp; exact absurd hp (by simp)
    | some name =>
      rw [hfm] at hp
      cases hs : jsdocSearch (joinNl (((pySplitLines src.data).take p.1).drop (p.1 - 10))) with
      | none => rw [hs] at hp; exact absurd hp (by simp)
      | some raw =>
        rw [hs] at hp
        dsimp only at hp
        by_cases hempty : cleanDocBlock raw = []
        · rw [if_pos hempty] at hp; exact absurd hp (by simp)
        · rw [if_neg hempty] at hp
          have h1 := Option.some.inj hp
          rw [Prod.mk.injEq] at h1
          have hline : key.2.1 - 1 = p.1 := by
            rw [← h1.1]
            simp
          rw [hline]
          exact jsdocSearch_opens hs

/-- C4.  The JavaScript extractor attributes the doc block on line 1 to the
declaration on line 5, across a three-line gap of plain statements, and the
Java extractor attributes the doc block on line 1 to the declaration on line
10 across an eight-line gap; the claimed one-line-gap bound and the claimed
empty result in the absence of an adjacent comment both fail. -/
theorem C4_counterexample :
    _parse_javascript_docstrings jsGapSrc =
      [(("function foo", 5, 5), "Adds two numbers.")] ∧
    containsSub "/*".data (joinNl (((pySplitLines jsGapSrc.data).take 4).drop 1)) = false ∧
    _parse_java_docstrings javaGapSrc =
      [(("method run", 10, 10), "Runs it.")] ∧
    containsSub "/*".data (joinNl (((pySplitLines javaGapSrc.data).take 9).drop 1)) = false := by
  decide

/-- C4 witness: the amended theorem applied to the JavaScript entry of the
gap source and to the Java entry of its gap source. -/
theorem C4_witness :
    (∃ a b, joinNl (((pySplitLines jsGapSrc.data).take 4).drop 0) =
      a ++ "/**".data ++ b) ∧
    (∃ a b, joinNl (((pySplitLines javaGapSrc.data).take 9).drop 0) =
      a ++ "/**".data ++ b) := by
  constructor
  · have h := (C4_doc_attribution_within_window jsGapSrc ("function foo", 5, 5)
      "Adds two numbers.").1 (by decide)
    simpa using h
  · have h := (C4_doc_attribution_within_window javaGapSrc ("method run", 10, 10)
      "Runs it.").2 (by decide)
    simpa using h

/-- C6.  The renderer resolves each declaration in order: a nonempty exact
existing-doc match on the kind-name key and line span is used first; when
that key is absent, nonempty generated text keyed by path, kind and name is
used; when both are absent, the fixed placeholder is used.  Bodies are
stripped of surrounding whitespace as the code does. -/
theorem C6_doc_resolution_order (rel kind name : String) (s e : Nat)
    (existing : List ((String × Nat × Nat) × String)) (llm : List (String × String)) :
    (∀ d, lookupA existing (kind ++ " " ++ name, s, e) = some d → d ≠ "" →
      resolveDocBody rel kind name s e existing llm = String.mk (pyStrip d.data)) ∧
    (lookupA existing (kind ++ " " ++ name, s, e) = none →
      ∀ g, lookupA llm (rel ++ ":" ++ kind ++ ":" ++ name) = some g → g ≠ "" →
        resolveDocBody rel kind name s e existing llm = String.mk (pyStrip g.data)) ∧
    (lookupA existing (kind ++ " " ++ name, s, e) = none →
      lookupA llm (rel ++ ":" ++ kind ++ ":" ++ name) = none →
      resolveDocBody rel kind name s e existing llm = "No documentation available.") := by
  refine ⟨?_, ?_, ?_⟩
  · intro d hd hne
    simp only [resolveDocBody, hd]
    simp [hne]
  · intro hnone g hg hne
    simp only [resolveDocBody, hnone, hg]
    simp [hne]
  · intro hnone1 hnone2
    simp only [resolveDocBody, hnone1, hnone2]
    decide
/-- C6 witness: the theorem applied at concrete tables, one instance per
provenance level. -/
theorem C6_witness :
    resolveDocBody "a.py" "def" "f" 1 2 c6Existing c6Llm = "doc1" ∧
    resolveDocBody "a.py" "def" "g" 3 4 c6Existing c6Llm = "doc2" ∧
    resolveDocBody "a.py" "def" "h" 5 6 c6Existing c6Llm = "No documentation available." := by
  refine ⟨?_, ?_, ?_⟩
  · have h := (C6_doc_resolution_order "a.py" "def" "f" 1 2 c6Existing c6Llm).1 "doc1"
      (by decide) (by decide)
    rw [h]; decide
  · have h := (C6_doc_resolution_order "a.py" "def" "g" 3 4 c6Existing c6Llm).2.1
      (by decide) "doc2" (by decide) (by decide)
    rw [h]; decide
  · exact (C6_doc_resolution_order "a.py" "def" "h" 5 6 c6Existing c6Llm).2.2
      (by decide) (by decide)

/-- C10.  Reading returns an absent result rather than raising: a file over
1,000,000 bytes reads as none, a missing file reads as none, an unreadable
file reads as none; and every path on the touched-file list of the pipeline
corresponds to an entry whose text was actually read (so files reading as
none are excluded from the files-data table, the rendering loop and the
touched list). -/
theorem C10_unreadable_files_excluded :
    (∀ (sz : Nat) (c : Option String), sz > 1000000 → read_text_file (some ⟨sz, c⟩) = none) ∧
    read_text_file none = none ∧
    (∀ sz : Nat, read_text_file (some ⟨sz, none⟩) = none) ∧
    (∀ (scanDecls : String → String → List PyDeclRec)
        (entries : List (String × Option FsFile × String)) (p : String),
      p ∈ touchedFilesPipeline scanDecls entries →
      ∃ f lang txt, (p, f, lang) ∈ entries ∧ read_text_file f = some txt ∧
        lang ≠ "unknown" ∧ scanDecls txt lang ≠ []) := by
  refine ⟨?_, rfl, ?_, ?_⟩
  · intro sz c h
    simp [read_text_file, h]
  · intro sz
    simp [read_text_file]
  · intro scan entries p hp
    simp only [touchedFilesPipeline, List.mem_map] at hp
    obtain ⟨x, hx, hpx⟩ := hp
    simp only [filesDataPipeline, List.mem_filterMap] at hx
    obtain ⟨ent, hent, he⟩ := hx
    by_cases hu : ent.2.2 = "unknown"
    · rw [if_pos hu] at he
      exact absurd he (by simp)
    · rw [if_neg hu] at he
      cases hr : read_text_file ent.2.1 with
      | none => rw [hr] at he; exact absurd he (by simp)
      | some txt =>
        rw [hr] at he
        dsimp only at he
        by_cases hds : scan txt ent.2.2 = []
        · rw [if_pos hds] at he
          exact absurd he (by simp)
        · rw [if_neg hds] at he
          have hinj := Option.some.inj he
          refine ⟨ent.2.1, ent.2.2, txt, ?_, hr, hu, hds⟩
          have hp1 : p = ent.1 := by rw [← hpx, ← hinj]
          rw [hp1]
          exact hent

/-- C10 witness: the theorem applied to an oversized file and to the
one-file table whose touched list contains its path. -/
theorem C10_witness :
    read_text_file (some ⟨1000001, some "x"⟩) = none ∧
    (∃ f lang txt, ("a.py", f, lang) ∈ c10Entries ∧ read_text_file f = some txt ∧
      lang ≠ "unknown" ∧ c10Scan txt lang ≠ []) := by
  constructor
  · exact C10_unreadable_files_excluded.1 1000001 (some "x") (by decide)
  · exact C10_unreadable_files_excluded.2.2.2 c10Scan c10Entries "a.py" (by decide)

/-- splitLines always yields at least one line. -/
theorem splitLines_ne_nil : ∀ cs : List Char, splitLines cs ≠ [] := by
  intro cs
  induction cs with
  | nil => simp [splitLines]
  | cons c cs ih =>
    simp only [splitLines]
    by_cases hc : c = '\n'
    · simp [hc]
    · simp only [hc, if_false]
      cases h : splitLines cs with
      | nil => simp
      | cons l ls => simp

/-- Splitting distributes over a newline concatenation. -/
theorem splitLines_append_nl :
    ∀ a b : List Char, splitLines (a ++ '\n' :: b) = splitLines a ++ splitLines b := by
  intro a b
  induction a with
  | nil => simp [splitLines]
  | cons c a ih =>
    by_cases hc : c = '\n'
    · subst hc
      simp [splitLines, ih]
    · have h1 : splitLines (c :: (a ++ '\n' :: b)) =
          match splitLines (a ++ '\n' :: b) with
          | [] => [[c]]
          | l :: ls => (c :: l) :: ls := by
        simp [splitLines, hc]
      have h2 : splitLines (c :: a) =
          match splitLines a with
          | [] => [[c]]
          | l :: ls => (c :: l) :: ls := by
        simp [splitLines, hc]
      rw [List.cons_append, h1, ih, h2]
      cases h : splitLines a with
      | nil => exact absurd h (splitLines_ne_nil a)
      | cons l ls => simp

/-- A newline-free list is a single line. -/
theorem splitLines_noNl : ∀ a : List Char, (∀ c ∈ a, c ≠ '\n') → splitLines a = [a] := by
  intro a h
  induction a with
  | nil => rfl
  | cons c a ih =>
    have hc : c ≠ '\n' := h c (List.mem_cons_self c a)
    have ha : ∀ x ∈ a, x ≠ '\n' := fun x hx => h x (List.mem_cons_of_mem c hx)
    simp only [splitLines, hc, if_false, ih ha]

/-- takeWhile passes over a fully satisfying prefix. -/
theorem takeWhile_all_append {α : Type} (p : α → Bool) :
    ∀ (xs ys : List α), (∀ x ∈ xs, p x = true) →
      (xs ++ ys).takeWhile p = xs ++ ys.takeWhile p := by
  intro xs ys h
  induction xs with
  | nil => simp
  | cons x xs ih =>
    have hx : p x = true := h x (List.mem_cons_self x xs)
    have hxs : ∀ y ∈ xs, p y = true := fun y hy => h y (List.mem_cons_of_mem x hy)
    simp [List.takeWhile_cons, hx, ih hxs]

/-- Decimal digits print to digit characters with the expected values. -/
theorem digitChar_val {d : Nat} (h : d < 10) : (Nat.digitChar d).toNat - 48 = d := by
  interval_cases d <;> rfl

/-- Decimal digits print to digit characters. -/
theorem digitChar_isDigit {d : Nat} (h : d < 10) : (Nat.digitChar d).isDigit = true := by
  interval_cases d <;> rfl

/-- Appending one digit multiplies the accumulated value by ten. -/
theorem digitsVal_append_one (ds : List Char) (c : Char) :
    digitsVal (ds ++ [c]) = digitsVal ds * 10 + (c.toNat - 48) := by
  simp [digitsVal, List.foldl_append]

/-- The fuel-indexed printer is correct below its fuel bound. -/
theorem natStrAux_val : ∀ (f n : Nat), n < 10 ^ f → digitsVal (natStrAux f n) = n := by
  intro f
  induction f with
  | zero =>
    intro n h
    interval_cases n
    rfl
  | succ f ih =>
    intro n h
    by_cases h10 : n < 10
    · simp only [natStrAux, h10, if_true]
      have := digitChar_val h10
      simp [digitsVal] at this ⊢
      omega
    · simp only [natStrAux, h10, if_false]
      rw [digitsVal_append_one]
      have hdiv : n / 10 < 10 ^ f := by
        rw [Nat.div_lt_iff_lt_mul (by norm_num)]
        calc n < 10 ^ (f + 1) := h
          _ = 10 ^ f * 10 := by rw [Nat.pow_succ]
      rw [ih (n / 10) hdiv, digitChar_val (Nat.mod_lt n (by norm_num))]
      omega

/-- The printer is correct. -/
theorem natStrL_val (n : Nat) : digitsVal (natStrL n) = n := by
  apply natStrAux_val
  calc n < 10 ^ n := Nat.lt_pow_self (by norm_num) n
    _ ≤ 10 ^ (n + 1) := Nat.pow_le_pow_right (by norm_num) (Nat.le_succ n)

/-- Every printed character is a digit. -/
theorem natStrAux_isDigit : ∀ (f n : Nat), ∀ c ∈ natStrAux f n, c.isDigit = true := by
  intro f
  induction f with
  | zero => intro n c hc; simp [natStrAux] at hc
  | succ f ih =>
    intro n c hc
    by_cases h10 : n < 10
    · simp only [natStrAux, h10, if_true] at hc
      simp at hc
      subst hc
      exact digitChar_isDigit h10
    · simp only [natStrAux, h10, if_false] at hc
      rcases List.mem_append.mp hc with h | h
      · exact ih (n / 10) c h
      · simp at h
        subst h
        exact digitChar_isDigit (Nat.mod_lt n (by norm_num))

/-- Every printed character is a digit. -/
theorem natStrL_isDigit (n : Nat) : ∀ c ∈ natStrL n, c.isDigit = true :=
  natStrAux_isDigit (n + 1) n

/-- Digits are not newlines, spaces, backquotes, nor terminators. -/
theorem isDigit_ne {c : Char} (h : c.isDigit = true) :
    c ≠ '\n' ∧ c ≠ ' ' ∧ c ≠ bq ∧ c ≠ '-' ∧ c ≠ ')' := by
  refine ⟨?_, ?_, ?_, ?_, ?_⟩ <;> rintro rfl <;> revert h <;> decide

/-- The printed representation is nonempty. -/
theorem natStrL_ne_nil (n : Nat) : natStrL n ≠ [] := by
  unfold natStrL natStrAux
  by_cases h10 : n < 10 <;> simp [h10]

/-- A list is a Boolean prefix of itself followed by anything. -/
theorem isPrefixOf_append_self (a b : List Char) : a.isPrefixOf (a ++ b) = true :=
  List.isPrefixOf_iff_prefix.mpr (List.prefix_append a b)

/-- takeWhile on not-space stops exactly at the first space. -/
theorem takeWhile_until_space (xs r : List Char) (h : ∀ x ∈ xs, x ≠ ' ') :
    (xs ++ ' ' :: r).takeWhile (fun c => c ≠ ' ') = xs := by
  rw [takeWhile_all_append _ xs (' ' :: r) (fun x hx => decide_eq_true (h x hx))]
  simp

/-- takeWhile on not-backquote stops exactly at the first backquote. -/
theorem takeWhile_until_bq (xs r : List Char) (h : ∀ x ∈ xs, x ≠ bq) :
    (xs ++ bq :: r).takeWhile (fun c => c ≠ bq) = xs := by
  rw [takeWhile_all_append _ xs (bq :: r) (fun x hx => decide_eq_true (h x hx))]
  simp

/-- takeWhile on digits stops exactly at the first non-digit. -/
theorem takeWhile_digits_stop (xs : List Char) (c : Char) (r : List Char)
    (hx : ∀ x ∈ xs, x.isDigit = true) (hc : c.isDigit = false) :
    (xs ++ c :: r).takeWhile Char.isDigit = xs := by
  rw [takeWhile_all_append Char.isDigit xs (c :: r) hx]
  simp [List.takeWhile_cons, hc]

/-- Splitting a line off at an explicit newline. -/
theorem splitLines_cons_nl (r : List Char) : splitLines ('\n' :: r) = [] :: splitLines r := by
  simp [splitLines]

/-- Re-parsing the rendered section header recovers its tuple. -/
theorem headerLineParse_header (d : PyDeclRec)
    (ht : ∀ c ∈ d.type.data, c ≠ ' ' ∧ c ≠ '\n')
    (hn : ∀ c ∈ d.name.data, c ≠ bq ∧ c ≠ '\n') :
    headerLineParse (headerLineChars d) = some (declTuple d) := by
  simp only [headerLineParse, headerLineChars]
  rw [isPrefixOf_append_self]
  simp only [if_true]
  rw [show (("### ".data ++
      (d.type.data ++
        (' ' :: bq ::
          (d.name.data ++
            (bq ::
              (" (lines ".data ++
                (natStrL (declStartLine d) ++
                  ('-' :: (natStrL (declEndLine d) ++ [')']))))))))).drop 4) =
      (d.type.data ++
        (' ' :: bq ::
          (d.name.data ++
            (bq ::
              (" (lines ".data ++
                (natStrL (declStartLine d) ++
                  ('-' :: (natStrL (declEndLine d) ++ [')']))))))))
    from List.drop_left "### ".data _]
  rw [takeWhile_until_space d.type.data _ (fun x hx => (ht x hx).1)]
  rw [List.drop_left]
  simp only [if_pos rfl]
  rw [takeWhile_until_bq d.name.data _ (fun x hx => (hn x hx).1)]
  rw [List.drop_left]
  dsimp only
  rw [isPrefixOf_append_self]
  simp only [decide_eq_true_eq, if_pos rfl, Bool.and_true]
  rw [show ((" (lines ".data ++
      (natStrL (declStartLine d) ++
        ('-' :: (natStrL (declEndLine d) ++ [')'])))).drop 8) =
      (natStrL (declStartLine d) ++ ('-' :: (natStrL (declEndLine d) ++ [')'])))
    from List.drop_left " (lines ".data _]
  rw [takeWhile_digits_stop (natStrL (declStartLine d)) '-' _ (natStrL_isDigit _) (by decide)]
  rw [List.drop_left]
  simp only [natStrL_ne_nil, if_false]
  simp [takeWhile_digits_stop (natStrL (declEndLine d)) ')' [] (natStrL_isDigit _) (by decide),
    List.drop_left, natStrL_val, declTuple, natStrL_ne_nil]

/-- The empty line is not a section header. -/
theorem headerLineParse_nil : headerLineParse [] = none := rfl

/-- The title line of a rendered document is not a section header. -/
theorem headerLineParse_title (r : List Char) : headerLineParse ('#' :: ' ' :: r) = none := by
  have hpre : ("### ".data.isPrefixOf ('#' :: ' ' :: r)) = false := by
    simp [List.isPrefixOf]
  simp [headerLineParse, hpre]

/-- The no-declarations marker line is not a section header. -/
theorem headerLineParse_noDecls : headerLineParse "(No declarations found)".data = none := by
  decide

/-- Template heading lines contain no newline. -/
theorem templateHeading_noNl (t : String) : ∀ c ∈ templateHeadingLine t, c ≠ '\n' := by
  simp only [templateHeadingLine]
  split
  · decide
  · split
    · decide
    · decide

/-- Template heading lines are not section headers. -/
theorem templateHeading_parse_none (t : String) : headerLineParse (templateHeadingLine t) = none := by
  simp only [templateHeadingLine]
  split
  · decide
  · split
    · decide
    · decide

/-- Header lines of well-formed declarations contain no newline. -/
theorem headerLineChars_noNl (d : PyDeclRec)
    (ht : ∀ c ∈ d.type.data, c ≠ ' ' ∧ c ≠ '\n')
    (hn : ∀ c ∈ d.name.data, c ≠ bq ∧ c ≠ '\n') :
    ∀ c ∈ headerLineChars d, c ≠ '\n' := by
  simp only [headerLineChars, List.forall_mem_append, List.forall_mem_cons]
  refine ⟨by decide, fun c hc => (ht c hc).2, by decide, by decide,
    fun c hc => (hn c hc).2, by decide, by decide,
    fun c hc => (isDigit_ne (natStrL_isDigit _ c hc)).1, by decide,
    fun c hc => (isDigit_ne (natStrL_isDigit _ c hc)).1, by decide, by decide⟩

/-- Parsing the lines of the rendered sections of a declaration list
recovers exactly its tuples, provided kinds, names and bodies are
header-clean. -/
theorem sectionsParse (rel : String) (ex : List ((String × Nat × Nat) × String))
    (llm : List (String × String)) :
    ∀ decls : List PyDeclRec,
      (∀ d ∈ decls, (∀ c ∈ d.type.data, c ≠ ' ' ∧ c ≠ '\n') ∧
        (∀ c ∈ d.name.data, c ≠ bq ∧ c ≠ '\n')) →
      (∀ d ∈ decls, ∀ l ∈ splitLines (resolveDocBody rel d.type d.name
          (declStartLine d) (declEndLine d) ex llm).data, headerLineParse l = none) →
      (splitLines ((decls.map (renderSectionChars rel ex llm)).flatten)).filterMap
          headerLineParse = decls.map declTuple := by
  intro decls
  induction decls with
  | nil =>
    intro _ _
    simp [splitLines, headerLineParse_nil]
  | cons d ds ih =>
    intro h2 h3
    have hd2 := h2 d (List.mem_cons_self d ds)
    have hd3 := h3 d (List.mem_cons_self d ds)
    have hds2 : ∀ x ∈ ds, (∀ c ∈ x.type.data, c ≠ ' ' ∧ c ≠ '\n') ∧
        (∀ c ∈ x.name.data, c ≠ bq ∧ c ≠ '\n') :=
      fun x hx => h2 x (List.mem_cons_of_mem d hx)
    have hds3 : ∀ x ∈ ds, ∀ l ∈ splitLines (resolveDocBody rel x.type x.name
        (declStartLine x) (declEndLine x) ex llm).data, headerLineParse l = none :=
      fun x hx => h3 x (List.mem_cons_of_mem d hx)
    have harr : (List.map (renderSectionChars rel ex llm) (d :: ds)).flatten =
        headerLineChars d ++ ('\n' :: '\n' ::
          ((resolveDocBody rel d.type d.name (declStartLine d) (declEndLine d) ex llm).data ++
            ('\n' :: '\n' :: (List.map (renderSectionChars rel ex llm) ds).flatten))) := by
      simp [renderSectionChars, List.append_assoc]
    rw [harr, splitLines_append_nl, splitLines_cons_nl, splitLines_append_nl,
      splitLines_cons_nl, splitLines_noNl (headerLineChars d) (headerLineChars_noNl d hd2.1 hd2.2)]
    have hbody : (splitLines (resolveDocBody rel d.type d.name (declStartLine d)
        (declEndLine d) ex llm).data).filterMap headerLineParse = [] :=
      List.filterMap_eq_nil_iff.mpr hd3
    simp [List.filterMap_append, headerLineParse_header d hd2.1 hd2.2,
      headerLineParse_nil, hbody, ih hds2 hds3]

/-- C9 (amended).  For every file whose declarations carry known line
numbers, whose kinds are space-free and names backquote-free, whose path has
no newline, and whose resolved documentation bodies contain no line that
itself matches the section-header format, re-parsing the headers of the
rendered document recovers exactly the ordered (kind, name, start, end)
tuples that were rendered. -/
theorem C9_header_roundtrip (rel lang text : String) (decls : List PyDeclRec)
    (ex : List ((String × Nat × Nat) × String)) (llm : List (String × String))
    (template : String)
    (_h0 : ∀ d ∈ decls, d.lineno.isSome ∧ d.end_lineno.isSome)
    (h1 : ∀ c ∈ rel.data, c ≠ '\n')
    (h2 : ∀ d ∈ decls, (∀ c ∈ d.type.data, c ≠ ' ' ∧ c ≠ '\n') ∧
      (∀ c ∈ d.name.data, c ≠ bq ∧ c ≠ '\n'))
    (h3 : ∀ d ∈ decls, ∀ l ∈ splitLines (resolveDocBody rel d.type d.name
        (declStartLine d) (declEndLine d) ex llm).data, headerLineParse l = none) :
    parseDocHeaders (_render_markdown_for_file rel lang text decls ex llm template) =
      decls.map declTuple := by
  show (splitLines (renderDocChars rel decls ex llm template)).filterMap headerLineParse =
    decls.map declTuple
  have htitle : ∀ c ∈ "# ".data ++ rel.data, c ≠ '\n' :=
    List.forall_mem_append.mpr ⟨by decide, h1⟩
  simp only [renderDocChars]
  rw [splitLines_append_nl, splitLines_cons_nl, splitLines_append_nl, splitLines_cons_nl,
    splitLines_noNl _ htitle, splitLines_noNl _ (templateHeading_noNl template)]
  by_cases hd : decls = []
  · subst hd
    simp only [if_true]
    rw [splitLines_append_nl]
    simp [List.filterMap_cons, List.filterMap_append, headerLineParse_title,
      headerLineParse_nil, templateHeading_parse_none, headerLineParse_noDecls, splitLines]
    decide
  · rw [if_neg hd]
    simp [List.filterMap_cons, List.filterMap_append, headerLineParse_title,
      headerLineParse_nil, templateHeading_parse_none, sectionsParse rel ex llm decls h2 h3]

/-- C9.  The round-trip fails when a documentation body itself contains a
line in the section-header format: rendering one declaration whose existing
doc spoofs a header yields a document whose re-parsed headers contain an
extra tuple. -/
theorem C9_counterexample :
    parseDocHeaders (_render_markdown_for_file "m.py" "python" "" [c9Decl]
        c9Existing [] "api") =
      [("def", "f", 1, 2), ("def", "g", 3, 4)] ∧
    parseDocHeaders (_render_markdown_for_file "m.py" "python" "" [c9Decl]
        c9Existing [] "api") ≠
      [c9Decl].map declTuple := by
  decide

/-- C9 witness: the amended theorem applied to a one-declaration file with
an ordinary documentation body. -/
theorem C9_witness :
    parseDocHeaders (_render_markdown_for_file "m.py" "python" "" [c9WitnessDecl]
        c9WitnessExisting [] "api") = [c9WitnessDecl].map declTuple :=
  C9_header_roundtrip "m.py" "python" "" [c9WitnessDecl] c9WitnessExisting [] "api"
    (by decide) (by decide) (by decide) (by decide)
